import Mathlib

/-!
# Verification of the CheckLogs node SDK core

A shallow embedding of the SDK's resilient delivery layer
(`CheckLogsLogger` in `lib/logger`, `CheckLogsClient` in `lib/client`)
and of its analytics aggregation engine (`CheckLogsStats` in
`lib/stats.mjs`), together with theorems settling the specification's
claims about them.

JS objects used as string-keyed maps are modelled as insertion-ordered
association lists where a later assignment overrides an earlier one, so
the spread `{...a, ...b}` is list append.  Machine numbers that the code
only adds, multiplies and compares are modelled as `Nat`/`Int`; the
analytics divisions are modelled over `ℚ` (the algorithms are exact
rational arithmetic at the scales the spec discusses).
-/

namespace CheckLogs

/-- A JS object used as a string-keyed context mapping: an
insertion-ordered list of assignments; a later assignment overrides an
earlier one, so `{...a, ...b}` is modelled by `a ++ b`. -/
abbrev Ctx := List (String × String)

/-- Lookup in a context object: the last assignment to a key wins. -/
def ctxLookup (c : Ctx) (k : String) : Option String :=
  c.foldl (fun acc p => if p.1 = k then some p.2 else acc) none

/-- JS `a || b` on an optional string: `undefined` and `""` are falsy. -/
def jsOrStr (a : Option String) (b : Option String) : Option String :=
  match a with
  | none => b
  | some s => if s = "" then b else some s

/-- JS `a || b` on an optional number: `undefined` and `0` are falsy. -/
def jsOrNum (a : Option Int) (b : Option Int) : Option Int :=
  match a with
  | none => b
  | some n => if n = 0 then b else some n

/-- JS `logData.level || 'info'` (logger line 370). -/
def levelOrInfo (l : Option String) : String :=
  match l with
  | none => "info"
  | some s => if s = "" then "info" else s

/-- A caller-supplied log record (`logData` throughout `client`/`logger`). -/
structure LogData where
  message : String
  level : Option String
  context : Ctx
  source : Option String
  user_id : Option Int
deriving DecidableEq

/-- The enhanced payload built by `CheckLogsLogger.log` (lines 374-380)
and validated/posted by `CheckLogsClient.log`. -/
structure EnhancedData where
  message : String
  level : String
  context : Ctx
  source : Option String
  user_id : Option Int
deriving DecidableEq

/-- The SDK error taxonomy (`lib/errors`): `ValidationError` from payload
validation, `ApiError` from an API error response, `NetworkError`
otherwise. -/
inductive SendError
  | validation (msg : String)
  | api (msg : String) (status : Nat)
  | network (msg : String)
deriving DecidableEq

/-- The allowed log levels (`client._validateLogData`). -/
def validLevels : List String := ["info", "warning", "error", "critical", "debug"]

/-- `CheckLogsClient._validateLogData`, returning the first failure if
any.  The `context`/`user_id` typeof checks hold by typing here; the JS
falsy test on `message` is the empty-string test; `source && length`
is modelled through `getD ""` (the empty string never exceeds 100). -/
def validateLogData (validatePayload : Bool) (d : EnhancedData) : Option SendError :=
  if !validatePayload then none
  else if d.message = "" then
    some (.validation "message is required and must be a string")
  else if d.message.length > 1024 then
    some (.validation "message must be 1024 characters or less")
  else if d.level ≠ "" ∧ d.level ∉ validLevels then
    some (.validation "level must be one of: info, warning, error, critical, debug")
  else if (d.source.getD "").length > 100 then
    some (.validation "source must be 100 characters or less")
  else none

/-- `CheckLogsClient.log` on an already-built payload: validate, then
post through the transport (the axios call, abstracted as a function).
Also returns the payload actually posted — `none` when no HTTP request
was made (a `ValidationError` is re-thrown before the post). -/
def clientLog (validatePayload : Bool) (transport : EnhancedData → Except SendError String)
    (d : EnhancedData) : Except SendError String × Option EnhancedData :=
  match validateLogData validatePayload d with
  | some e => (.error e, none)
  | none => (transport d, some d)

/-- Constructor-set configuration of a `CheckLogsLogger` (lines 269-288);
`maxRetries = 3` and `retryDelay = 1000` are hard-coded there. -/
structure LoggerCfg where
  defaultSource : Option String := none
  defaultUserId : Option Int := none
  defaultContext : Ctx := []
  silent : Bool := false
  consoleOutput : Bool := true
  enabledLevels : List String := validLevels
  includeTimestamp : Bool := true
  includeHostname : Bool := true
  validatePayload : Bool := true
  maxRetries : Nat := 3
  retryDelay : Nat := 1000
  hostname : String := "unknown"
deriving DecidableEq

/-- `CheckLogsLogger._buildContext`: defaults spread with the caller's
context, then the metadata keys.  Wall-clock time is the `now`
parameter; the process descriptor is collapsed to one marker value. -/
def buildContext (cfg : LoggerCfg) (userContext : Ctx) (now : Nat) : Ctx :=
  let c1 := cfg.defaultContext ++ userContext
  let c2 := if cfg.includeTimestamp then c1 ++ [("_timestamp", toString now)] else c1
  let c3 := if cfg.includeHostname then c2 ++ [("_hostname", cfg.hostname)] else c2
  c3 ++ [("_process", "pid version platform")]

/-- The console channel a `_consoleLog` call writes to. -/
inductive ConsoleChannel
  | out
  | warn
  | error
  | debug
deriving DecidableEq

/-- One console write observed during a `log` call. -/
structure ConsoleEvent where
  channel : ConsoleChannel
  message : String
deriving DecidableEq

/-- `CheckLogsLogger._consoleLog` (lines 340-360): mirrors a record to
the console unless console output is off or the logger is silent. -/
def consoleMirror (cfg : LoggerCfg) (level message : String) (now : Nat) : List ConsoleEvent :=
  if !cfg.consoleOutput || cfg.silent then []
  else
    let m := "[" ++ toString now ++ "] [" ++ level.toUpper ++ "] " ++ message
    if level = "error" ∨ level = "critical" then [⟨.error, m⟩]
    else if level = "warning" then [⟨.warn, m⟩]
    else if level = "debug" then [⟨.debug, m⟩]
    else [⟨.out, m⟩]

/-- One entry of the retry queue (pushed by `_addToRetryQueue`). -/
structure RetryItem where
  logData : LogData
  retryCount : Nat
  addedAt : Nat
deriving DecidableEq

/-- Whether a queue item matches a record's identity key
`(message, level)` — the comparison of `_addToRetryQueue` /
`_removeFromRetryQueue`. -/
def matchesKey (d : LogData) (item : RetryItem) : Bool :=
  item.logData.message = d.message && item.logData.level = d.level

/-- Whether the queue already holds an item for the record's identity
key (the `find` of `_addToRetryQueue`). -/
def containsKey (q : List RetryItem) (d : LogData) : Bool :=
  q.any (matchesKey d)

/-- `CheckLogsLogger._addToRetryQueue` (lines 420-433): push a fresh
item (a shallow copy of `logData`, `retryCount + 1`, the current time)
unless an item with the same identity key is already queued. -/
def addToRetryQueue (q : List RetryItem) (d : LogData) (retryCount now : Nat) : List RetryItem :=
  if containsKey q d then q
  else q ++ [{ logData := d, retryCount := retryCount + 1, addedAt := now }]

/-- `CheckLogsLogger._removeFromRetryQueue` (lines 439-444): filter out
every item matching the identity key. -/
def removeFromRetryQueue (q : List RetryItem) (d : LogData) : List RetryItem :=
  q.filter (fun item => !matchesKey d item)

/-- The payload enhancement of `CheckLogsLogger.log` (lines 374-380). -/
def enhance (cfg : LoggerCfg) (d : LogData) (now : Nat) : EnhancedData :=
  { message := d.message
    level := levelOrInfo d.level
    context := buildContext cfg d.context now
    source := jsOrStr d.source cfg.defaultSource
    user_id := jsOrNum d.user_id cfg.defaultUserId }

/-- A `setTimeout` scheduled by the catch branch of
`CheckLogsLogger.log`: its delay and the continuation's arguments. -/
structure ScheduledRetry where
  delay : Nat
  logData : LogData
  retryCount : Nat
deriving DecidableEq

/-- The value a `CheckLogsLogger.log` call resolves or rejects with. -/
inductive LogOutcome
  | skipped (reason : String)
  | success (resp : String)
  | failure (e : SendError)
deriving DecidableEq

/-- Everything one `CheckLogsLogger.log` call produces: its outcome, the
retry queue afterwards, the retry it scheduled (if any), its console
writes, and the payload posted through the transport (if any). -/
structure StepResult where
  outcome : LogOutcome
  queue : List RetryItem
  scheduled : Option ScheduledRetry
  console : List ConsoleEvent
  sent : Option EnhancedData
deriving DecidableEq

/-- One execution of `CheckLogsLogger.log logData retryCount` (lines
368-413) against retry queue `q` at time `now`, the transport given as a
function. -/
def logStep (cfg : LoggerCfg) (transport : EnhancedData → Except SendError String)
    (q : List RetryItem) (d : LogData) (retryCount : Nat) (now : Nat) : StepResult :=
  if !cfg.enabledLevels.contains (levelOrInfo d.level) then
    { outcome := .skipped "level_disabled", queue := q, scheduled := none,
      console := [], sent := none }
  else
    let enhancedData := enhance cfg d now
    let consoleEvts := consoleMirror cfg enhancedData.level enhancedData.message now
    match clientLog cfg.validatePayload transport enhancedData with
    | (.ok resp, sent) =>
      let q' := if retryCount > 0 then removeFromRetryQueue q d else q
      { outcome := .success resp, queue := q', scheduled := none,
        console := consoleEvts, sent := sent }
    | (.error e, sent) =>
      let qs :=
        if retryCount < cfg.maxRetries then
          (addToRetryQueue q d retryCount now,
           some { delay := cfg.retryDelay * 2 ^ retryCount, logData := d,
                  retryCount := retryCount + 1 })
        else (q, none)
      let errEvt :=
        if !cfg.silent then
          [ConsoleEvent.mk .error
            ("Failed to send log to CheckLogs (attempt " ++ toString (retryCount + 1) ++ ")")]
        else []
      { outcome := .failure e, queue := qs.1, scheduled := qs.2,
        console := consoleEvts ++ errEvt, sent := sent }

/-- Run `CheckLogsLogger.log` and then each retry it schedules in turn,
advancing the clock by the scheduled delay.  Returns the final retry
queue and the number of attempts performed; `fuel` bounds the
recursion. -/
def runLog (cfg : LoggerCfg) (transport : EnhancedData → Except SendError String) :
    Nat → List RetryItem → LogData → Nat → Nat → List RetryItem × Nat
  | 0, q, _, _, _ => (q, 0)
  | fuel + 1, q, d, retryCount, now =>
    let r := logStep cfg transport q d retryCount now
    match r.scheduled with
    | none => (r.queue, 1)
    | some s =>
      let rest := runLog cfg transport fuel r.queue s.logData s.retryCount (now + s.delay)
      (rest.1, rest.2 + 1)

/-! ## Analytics aggregation engine (`lib/stats.mjs`) -/

/-- One `{level, count}` entry of the fetched `stats_by_level` list. -/
structure LevelStat where
  level : String
  count : Nat
deriving DecidableEq

/-- One `{date, count}` entry of the fetched `daily_stats` list; the
date is its timestamp (`new Date(d.date)` valuation). -/
structure DayStat where
  date : Int
  count : Nat
deriving DecidableEq

/-- JS `Math.round(x * 100) / 100` over exact rationals:
`Math.round` is `⌊x + 1/2⌋` (half toward positive infinity). -/
def round2 (x : ℚ) : ℚ := (⌊x * 100 + 1 / 2⌋ : ℚ) / 100

/-- `CheckLogsStats.getErrorRate` (stats.mjs lines 78-92) on a fetched
`stats_by_level` list: one `forEach` pass accumulating the total count
and the error/critical count. -/
def getErrorRate (statsByLevel : List LevelStat) : ℚ :=
  let acc := statsByLevel.foldl
    (fun (p : Nat × Nat) stat =>
      (p.1 + stat.count,
       if stat.level = "error" ∨ stat.level = "critical" then p.2 + stat.count else p.2))
    (0, 0)
  if acc.1 > 0 then ((acc.2 : ℚ) / (acc.1 : ℚ)) * 100 else 0

/-- The JS `reduce((max, current) => current.count > max.count ? current : max)`
pattern on a nonempty array `a :: t`, with `f` reading the count. -/
def reduceMax {α : Type} (f : α → Nat) (a : α) (t : List α) : α :=
  t.foldl (fun m c => if f c > f m then c else m) a

/-- The result shape of `getMostFrequentLevel`. -/
structure FrequentLevel where
  level : String
  count : Nat
  percentage : ℚ
deriving DecidableEq

/-- `CheckLogsStats.getMostFrequentLevel` (stats.mjs lines 98-117). -/
def getMostFrequentLevel (statsByLevel : List LevelStat) : Option FrequentLevel :=
  match statsByLevel with
  | [] => none
  | h :: t =>
    let mostFrequent := reduceMax LevelStat.count h t
    let totalLogs := (h :: t).foldl (fun sum stat => sum + stat.count) (0 : Nat)
    let percentage : ℚ :=
      if totalLogs > 0 then ((mostFrequent.count : ℚ) / (totalLogs : ℚ)) * 100 else 0
    some { level := mostFrequent.level, count := mostFrequent.count,
           percentage := round2 percentage }

/-- `CheckLogsStats.getPeakDay` (stats.mjs lines 138-148). -/
def getPeakDay (dailyStats : List DayStat) : Option DayStat :=
  match dailyStats with
  | [] => none
  | h :: t => some (reduceMax DayStat.count h t)

/-- The order imposed by the comparator
`(a, b) => new Date(b.date) - new Date(a.date)`: most recent date
first. -/
def dateGe (a b : DayStat) : Prop := b.date ≤ a.date

instance : DecidableRel dateGe :=
  fun a b => inferInstanceAs (Decidable (b.date ≤ a.date))

instance : IsTotal DayStat dateGe := ⟨fun a b => le_total b.date a.date⟩

instance : IsTrans DayStat dateGe := ⟨fun _ _ _ h1 h2 => le_trans h2 h1⟩

/-- The stable sort `dailyStats.sort((a, b) => new Date(b.date) - new Date(a.date))`. -/
def sortByDateDesc (l : List DayStat) : List DayStat := l.insertionSort dateGe

/-- The result shape of `getTrend`. -/
structure TrendResult where
  trend : String
  change : ℚ
  last_week : Nat
  previous_week : Nat
deriving DecidableEq

/-- The classification block of `getTrend` (stats.mjs lines 176-179):
`stable` unless `Math.abs(change) > 20`, in which case the sign picks
`increasing` or `decreasing`. -/
def trendLabel (change : ℚ) : String :=
  if |change| > 20 then (if change > 0 then "increasing" else "decreasing")
  else "stable"

/-- `CheckLogsStats.getTrend` (stats.mjs lines 154-187). -/
def getTrend (dailyStats : List DayStat) : TrendResult :=
  if dailyStats.length < 14 then
    { trend := "insufficient_data", change := 0, last_week := 0, previous_week := 0 }
  else
    let sortedStats := sortByDateDesc dailyStats
    let lastWeekLogs := (sortedStats.take 7).foldl (fun sum day => sum + day.count) (0 : Nat)
    let previousWeekLogs :=
      ((sortedStats.drop 7).take 7).foldl (fun sum day => sum + day.count) (0 : Nat)
    let change : ℚ :=
      if previousWeekLogs > 0 then
        (((lastWeekLogs : ℚ) - (previousWeekLogs : ℚ)) / (previousWeekLogs : ℚ)) * 100
      else 0
    { trend := trendLabel change, change := round2 change,
      last_week := lastWeekLogs, previous_week := previousWeekLogs }

/-! ## Heap model for context objects (`CheckLogsLogger.child`)

`child` builds `mergedContext = { ...this.defaultContext, ...additionalContext }`
— a brand-new object — and hands it to the child constructor, which
stores the passed reference as the child's `defaultContext`.  To reason
about aliasing we make the object store explicit: a heap of context
objects addressed by allocation index. -/

/-- The store of context objects; a logger's `defaultContext` is a
reference (index) into it. -/
abbrev CtxHeap := List Ctx

/-- Dereference a context object. -/
def heapRead (h : CtxHeap) (r : Nat) : Ctx := (h.get? r).getD []

/-- Mutate the object behind a reference in place. -/
def heapWrite (h : CtxHeap) (r : Nat) (c : Ctx) : CtxHeap := h.set r c

/-- Allocate a fresh object, returning the new heap and its reference. -/
def heapAlloc (h : CtxHeap) (c : Ctx) : CtxHeap × Nat := (h ++ [c], h.length)

/-- `CheckLogsLogger.child` (lines 475-490), restricted to the default
context it builds: allocates the fresh `mergedContext` object
`{ ...parent.defaultContext, ...additionalContext }` and returns the
child's reference to it. -/
def childAlloc (h : CtxHeap) (parentRef : Nat) (additionalContext : Ctx) : CtxHeap × Nat :=
  heapAlloc h (heapRead h parentRef ++ additionalContext)

/-! ## Specification-side reformulations used in theorem statements -/

/-- The identity key of a queued item, as the spec reads it. -/
def itemKey (i : RetryItem) : String × Option String := (i.logData.message, i.logData.level)

/-- The dedup invariant of §3: at most one queued item per identity
key. -/
def UniqueKeys (q : List RetryItem) : Prop :=
  q.Pairwise (fun a b => itemKey a ≠ itemKey b)

/-- Total of a per-level count list, as a plain sum. -/
def totalCount (l : List LevelStat) : Nat := (l.map LevelStat.count).sum

/-- Count of error and critical entries, as a plain filtered sum. -/
def errorCount (l : List LevelStat) : Nat :=
  ((l.filter (fun s => s.level == "error" || s.level == "critical")).map LevelStat.count).sum

/-- Sum of the counts of a run of daily entries. -/
def weekSum (l : List DayStat) : Nat := (l.map DayStat.count).sum

/-- The week-over-week change before rounding:
`(lastWeek - previousWeek) / previousWeek * 100` when `previousWeek > 0`,
else `0`. -/
def rawChange (lastW prevW : Nat) : ℚ :=
  if prevW > 0 then (((lastW : ℚ) - (prevW : ℚ)) / (prevW : ℚ)) * 100 else 0

/-- The greatest count occurring in a list (`0` when empty). -/
def maxCount {α : Type} (f : α → Nat) (l : List α) : Nat := (l.map f).foldr max 0

/-- The first entry attaining the maximal count. -/
def firstMax {α : Type} (f : α → Nat) (l : List α) : Option α :=
  l.find? (fun x => decide (maxCount f l ≤ f x))

/-! ## Concrete sample values for witnesses and counterexamples -/

/-- A record used in concrete evaluations. -/
def dEx : LogData :=
  { message := "db down", level := some "error", context := [], source := none,
    user_id := none }

/-- A record whose payload fails validation: its message is empty. -/
def dBad : LogData :=
  { message := "", level := some "info", context := [], source := none,
    user_id := none }

/-- A transport that always succeeds. -/
def okTransport : EnhancedData → Except SendError String := fun _ => .ok "ok"

/-- A transport that always fails with a (retryable) network error. -/
def failTransport : EnhancedData → Except SendError String :=
  fun _ => .error (.network "Network request failed")

/-- A queue already holding a retry item for `dEx`'s identity key. -/
def qEx : List RetryItem := [{ logData := dEx, retryCount := 1, addedAt := 0 }]

/-- The default logger configuration. -/
def cfgEx : LoggerCfg := {}

/-- A 14-entry daily series, already most-recent-first: the last seven
days sum to 140, the previous seven to 100. -/
def trendEx : List DayStat :=
  [⟨14, 20⟩, ⟨13, 20⟩, ⟨12, 20⟩, ⟨11, 20⟩, ⟨10, 20⟩, ⟨9, 20⟩, ⟨8, 20⟩,
   ⟨7, 16⟩, ⟨6, 14⟩, ⟨5, 14⟩, ⟨4, 14⟩, ⟨3, 14⟩, ⟨2, 14⟩, ⟨1, 14⟩]

/-- A configuration restricted to error and critical levels. -/
def cfgProd : LoggerCfg := { enabledLevels := ["error", "critical"] }

/-- A record with no explicit level (defaults to `info`). -/
def dInfo : LogData :=
  { message := "hello", level := none, context := [], source := none, user_id := none }

/-- A daily series whose maximal count 5 is attained twice. -/
def peakTieEx : List DayStat := [⟨1, 5⟩, ⟨2, 5⟩, ⟨3, 4⟩]

/-- A per-level count list whose maximal count 3 is attained twice. -/
def levelTieEx : List LevelStat := [⟨"info", 3⟩, ⟨"error", 3⟩]

/-! ## Helper lemmas about the retry queue -/

theorem matchesKey_eq_true_iff (d : LogData) (i : RetryItem) :
    matchesKey d i = true ↔ itemKey i = (d.message, d.level) := by
  simp [matchesKey, itemKey, Prod.ext_iff]

theorem containsKey_eq_false_iff (q : List RetryItem) (d : LogData) :
    containsKey q d = false ↔ ∀ i ∈ q, itemKey i ≠ (d.message, d.level) := by
  simp [containsKey, List.any_eq_false, matchesKey_eq_true_iff]

theorem containsKey_append_self (q : List RetryItem) (d : LogData) (rc now : Nat) :
    containsKey (q ++ [{ logData := d, retryCount := rc, addedAt := now }]) d = true := by
  simp [containsKey, List.any_append, matchesKey]

theorem addToRetryQueue_of_containsKey (q : List RetryItem) (d : LogData) (rc now : Nat)
    (h : containsKey q d = true) : addToRetryQueue q d rc now = q := by
  simp [addToRetryQueue, h]

theorem addToRetryQueue_of_new (q : List RetryItem) (d : LogData) (rc now : Nat)
    (h : containsKey q d = false) :
    addToRetryQueue q d rc now =
      q ++ [{ logData := d, retryCount := rc + 1, addedAt := now }] := by
  simp [addToRetryQueue, h]

theorem containsKey_removeFromRetryQueue (q : List RetryItem) (d : LogData) :
    containsKey (removeFromRetryQueue q d) d = false := by
  simp only [containsKey, removeFromRetryQueue, List.any_eq_false]
  intro i hi
  have := List.of_mem_filter hi
  simpa using this

theorem uniqueKeys_removeFromRetryQueue (q : List RetryItem) (d : LogData)
    (h : UniqueKeys q) : UniqueKeys (removeFromRetryQueue q d) :=
  List.Pairwise.sublist (List.filter_sublist q) h

theorem uniqueKeys_addToRetryQueue (q : List RetryItem) (d : LogData) (rc now : Nat)
    (h : UniqueKeys q) : UniqueKeys (addToRetryQueue q d rc now) := by
  by_cases hc : containsKey q d = true
  · rw [addToRetryQueue_of_containsKey q d rc now hc]; exact h
  · rw [addToRetryQueue_of_new q d rc now (by simpa using hc)]
    refine List.pairwise_append.mpr ⟨h, List.pairwise_singleton _ _, ?_⟩
    intro a ha b hb
    have hb' : b = { logData := d, retryCount := rc + 1, addedAt := now } := by
      simpa using hb
    subst hb'
    have := (containsKey_eq_false_iff q d).mp (by simpa using hc) a ha
    simpa [itemKey] using this

/-! ## Helper lemmas about one `CheckLogsLogger.log` execution -/

theorem logStep_skip (cfg : LoggerCfg) (transport : EnhancedData → Except SendError String)
    (q : List RetryItem) (d : LogData) (rc now : Nat)
    (h : cfg.enabledLevels.contains (levelOrInfo d.level) = false) :
    logStep cfg transport q d rc now =
      { outcome := .skipped "level_disabled", queue := q, scheduled := none,
        console := [], sent := none } := by
  unfold logStep
  rw [h]
  rfl

theorem logStep_ok (cfg : LoggerCfg) (transport : EnhancedData → Except SendError String)
    (q : List RetryItem) (d : LogData) (rc now : Nat) (resp : String)
    (hlvl : cfg.enabledLevels.contains (levelOrInfo d.level) = true)
    (hval : validateLogData cfg.validatePayload (enhance cfg d now) = none)
    (htr : transport (enhance cfg d now) = .ok resp) :
    logStep cfg transport q d rc now =
      { outcome := .success resp,
        queue := if rc > 0 then removeFromRetryQueue q d else q,
        scheduled := none,
        console := consoleMirror cfg (enhance cfg d now).level (enhance cfg d now).message now,
        sent := some (enhance cfg d now) } := by
  have hcl : clientLog cfg.validatePayload transport (enhance cfg d now) =
      (.ok resp, some (enhance cfg d now)) := by
    unfold clientLog
    rw [hval, htr]
  unfold logStep
  rw [hlvl]
  simp only [Bool.not_true, Bool.false_eq_true, if_false, hcl]

theorem logStep_fail (cfg : LoggerCfg) (transport : EnhancedData → Except SendError String)
    (q : List RetryItem) (d : LogData) (rc now : Nat) (e : SendError)
    (sent : Option EnhancedData)
    (hlvl : cfg.enabledLevels.contains (levelOrInfo d.level) = true)
    (hcl : clientLog cfg.validatePayload transport (enhance cfg d now) = (.error e, sent)) :
    logStep cfg transport q d rc now =
      { outcome := .failure e,
        queue := if rc < cfg.maxRetries then addToRetryQueue q d rc now else q,
        scheduled :=
          if rc < cfg.maxRetries then
            some { delay := cfg.retryDelay * 2 ^ rc, logData := d, retryCount := rc + 1 }
          else none,
        console :=
          consoleMirror cfg (enhance cfg d now).level (enhance cfg d now).message now ++
            (if !cfg.silent then
              [ConsoleEvent.mk .error
                ("Failed to send log to CheckLogs (attempt " ++ toString (rc + 1) ++ ")")]
            else []),
        sent := sent } := by
  unfold logStep
  rw [hlvl]
  simp only [Bool.not_true, Bool.false_eq_true, if_false, hcl]
  by_cases hrc : rc < cfg.maxRetries <;> simp only [hrc, if_true, if_false, reduceIte]

theorem clientLog_error_of_transport (vp : Bool)
    (transport : EnhancedData → Except SendError String) (d : EnhancedData)
    (hfail : ∀ x, ∃ er, transport x = .error er) :
    ∃ e sent, clientLog vp transport d = (.error e, sent) := by
  unfold clientLog
  cases hv : validateLogData vp d with
  | none =>
    obtain ⟨er, her⟩ := hfail d
    exact ⟨er, some d, by simp [her]⟩
  | some e => exact ⟨e, none, rfl⟩

theorem uniqueKeys_logStep (cfg : LoggerCfg)
    (transport : EnhancedData → Except SendError String)
    (q : List RetryItem) (d : LogData) (rc now : Nat) (h : UniqueKeys q) :
    UniqueKeys (logStep cfg transport q d rc now).queue := by
  by_cases hlvl : cfg.enabledLevels.contains (levelOrInfo d.level) = true
  · cases hcl : clientLog cfg.validatePayload transport (enhance cfg d now) with
    | mk res sent =>
      cases res with
      | ok resp =>
        rw [logStep_ok cfg transport q d rc now resp hlvl ?hv ?ht]
        case hv =>
          rcases hv : validateLogData cfg.validatePayload (enhance cfg d now) with _ | e
          · rfl
          · rw [clientLog, hv] at hcl; cases hcl
        case ht =>
          rcases hv : validateLogData cfg.validatePayload (enhance cfg d now) with _ | e
          · rw [clientLog, hv] at hcl
            simpa using congrArg Prod.fst hcl
          · rw [clientLog, hv] at hcl; cases hcl
        by_cases hrc : rc > 0 <;>
          simp only [hrc, if_true, if_false, reduceIte] <;>
          first
            | exact uniqueKeys_removeFromRetryQueue q d h
            | exact h
      | error e =>
        rw [logStep_fail cfg transport q d rc now e sent hlvl hcl]
        by_cases hrc : rc < cfg.maxRetries <;> simp only [hrc, reduceIte]
        · exact uniqueKeys_addToRetryQueue q d rc now h
        · exact h
  · rw [logStep_skip cfg transport q d rc now (by simpa using hlvl)]
    exact h

/-! ## Claim theorems -/

/-- C10: a `log` call whose level (defaulting to `info` when absent) is
not in `enabledLevels` returns `{skipped: true, reason: level_disabled}`
without invoking the transport (the result is the same for any
transport and nothing is posted), produces no console output, and
leaves the retry queue unchanged. -/
theorem disabled_level_short_circuits (cfg : LoggerCfg)
    (transport transport' : EnhancedData → Except SendError String)
    (q : List RetryItem) (d : LogData) (retryCount now : Nat)
    (h : cfg.enabledLevels.contains (levelOrInfo d.level) = false) :
    logStep cfg transport q d retryCount now =
      { outcome := .skipped "level_disabled", queue := q, scheduled := none,
        console := [], sent := none } ∧
    logStep cfg transport q d retryCount now = logStep cfg transport' q d retryCount now := by
  refine ⟨logStep_skip cfg transport q d retryCount now h, ?_⟩
  rw [logStep_skip cfg transport q d retryCount now h,
    logStep_skip cfg transport' q d retryCount now h]

/-- Witness for C10 at a concrete disabled level: `dInfo` defaults to
`info`, which `cfgProd` does not enable. -/
theorem disabled_level_short_circuits_witness :
    cfgProd.enabledLevels.contains (levelOrInfo dInfo.level) = false ∧
    logStep cfgProd okTransport [] dInfo 0 0 =
      { outcome := .skipped "level_disabled", queue := [], scheduled := none,
        console := [], sent := none } :=
  ⟨by decide,
   (disabled_level_short_circuits cfgProd okTransport failTransport [] dInfo 0 0 (by decide)).1⟩

/-- C4: the retry queue holds at most one item per identity key
`(message, level)` — `logStep` preserves the invariant — and enqueueing
a record whose key is already pending leaves the queue unchanged. -/
theorem retry_queue_dedup_invariant (cfg : LoggerCfg)
    (transport : EnhancedData → Except SendError String)
    (q : List RetryItem) (d : LogData) (retryCount now : Nat)
    (hq : UniqueKeys q) :
    UniqueKeys (logStep cfg transport q d retryCount now).queue ∧
    (containsKey q d = true → addToRetryQueue q d retryCount now = q) :=
  ⟨uniqueKeys_logStep cfg transport q d retryCount now hq,
   fun hc => addToRetryQueue_of_containsKey q d retryCount now hc⟩

/-- Witness for C4 on a concrete one-item queue holding `dEx`'s key. -/
theorem retry_queue_dedup_invariant_witness :
    UniqueKeys (logStep cfgEx failTransport qEx dEx 0 0).queue ∧
    addToRetryQueue qEx dEx 0 0 = qEx := by
  have h := retry_queue_dedup_invariant cfgEx failTransport qEx dEx 0 0
    (by simp [UniqueKeys, qEx])
  exact ⟨h.1, h.2 (by decide)⟩

/-- C2 counterexample: with an item for `(db down, error)` already
queued, a first-attempt success for the same key leaves the queue
unchanged — it still contains an item for that identity key, refuting
"when a send succeeds, any existing RetryItem sharing the key is
removed" and "after a first-attempt success the queue contains no item
for that key". -/
theorem first_attempt_success_keeps_stale_item :
    (logStep cfgEx okTransport qEx dEx 0 0).outcome = .success "ok" ∧
    (logStep cfgEx okTransport qEx dEx 0 0).queue = qEx ∧
    containsKey (logStep cfgEx okTransport qEx dEx 0 0).queue dEx = true :=
  ⟨rfl, rfl, rfl⟩

/-- C2 amended: on a successful send the queue is touched only when the
call is itself a retry (`retryCount > 0`), in which case every item
sharing the identity key is removed; a first-attempt success leaves the
retry queue exactly unchanged (including any stale item for that
key). -/
theorem success_removes_key_only_on_retry (cfg : LoggerCfg)
    (transport : EnhancedData → Except SendError String)
    (q : List RetryItem) (d : LogData) (retryCount now : Nat) (resp : String)
    (hlvl : cfg.enabledLevels.contains (levelOrInfo d.level) = true)
    (hval : validateLogData cfg.validatePayload (enhance cfg d now) = none)
    (htr : transport (enhance cfg d now) = .ok resp) :
    (0 < retryCount →
      (logStep cfg transport q d retryCount now).queue = removeFromRetryQueue q d ∧
      containsKey (logStep cfg transport q d retryCount now).queue d = false) ∧
    (retryCount = 0 → (logStep cfg transport q d retryCount now).queue = q) := by
  rw [logStep_ok cfg transport q d retryCount now resp hlvl hval htr]
  constructor
  · intro hrc
    refine ⟨by simp [hrc], ?_⟩
    simp only [gt_iff_lt, hrc, if_true, reduceIte]
    exact containsKey_removeFromRetryQueue q d
  · intro hrc
    simp [hrc]

/-- Witness for C2 amended: a retry success at `retryCount = 1` clears
the key; a first-attempt success leaves the queue as it was. -/
theorem success_removes_key_only_on_retry_witness :
    (logStep cfgEx okTransport qEx dEx 1 0).queue = removeFromRetryQueue qEx dEx ∧
    (logStep cfgEx okTransport qEx dEx 0 5).queue = qEx := by
  have h1 := success_removes_key_only_on_retry cfgEx okTransport qEx dEx 1 0 "ok"
    (by decide) (by decide) rfl
  have h0 := success_removes_key_only_on_retry cfgEx okTransport qEx dEx 0 5 "ok"
    (by decide) (by decide) rfl
  exact ⟨(h1.1 (by decide)).1, h0.2 rfl⟩

/-- C3 counterexample: a record with an empty message fails validation;
the failure does propagate, but a RetryItem is inserted and a retry is
scheduled all the same, refuting "no RetryItem is ever inserted and no
retry is scheduled". -/
theorem validation_failure_is_queued_for_retry :
    (logStep cfgEx okTransport [] dBad 0 0).outcome =
      .failure (.validation "message is required and must be a string") ∧
    (logStep cfgEx okTransport [] dBad 0 0).queue =
      [{ logData := dBad, retryCount := 1, addedAt := 0 }] ∧
    (logStep cfgEx okTransport [] dBad 0 0).scheduled =
      some { delay := 1000, logData := dBad, retryCount := 1 } ∧
    (logStep cfgEx okTransport [] dBad 0 0).sent = none :=
  ⟨rfl, rfl, rfl, rfl⟩

/-- C3 amended: a `ValidationError` propagates to the caller immediately
and the transport is never invoked for it, but the logger does not
special-case it: while `retryCount < maxRetries` it inserts a RetryItem
and schedules a retry for the record exactly as for retryable
errors. -/
theorem validation_error_propagates_and_is_retried (cfg : LoggerCfg)
    (transport : EnhancedData → Except SendError String)
    (q : List RetryItem) (d : LogData) (retryCount now : Nat) (e : SendError)
    (hlvl : cfg.enabledLevels.contains (levelOrInfo d.level) = true)
    (hval : validateLogData cfg.validatePayload (enhance cfg d now) = some e)
    (hrc : retryCount < cfg.maxRetries) :
    (logStep cfg transport q d retryCount now).outcome = .failure e ∧
    (logStep cfg transport q d retryCount now).sent = none ∧
    (logStep cfg transport q d retryCount now).queue = addToRetryQueue q d retryCount now ∧
    (logStep cfg transport q d retryCount now).scheduled =
      some { delay := cfg.retryDelay * 2 ^ retryCount, logData := d,
             retryCount := retryCount + 1 } := by
  have hcl : clientLog cfg.validatePayload transport (enhance cfg d now) =
      (.error e, none) := by
    unfold clientLog
    rw [hval]
  rw [logStep_fail cfg transport q d retryCount now e none hlvl hcl]
  simp [hrc]

/-- Witness for C3 amended at the concrete invalid record `dBad`. -/
theorem validation_error_propagates_and_is_retried_witness :
    (logStep cfgEx failTransport [] dBad 0 7).queue = addToRetryQueue [] dBad 0 7 ∧
    (logStep cfgEx failTransport [] dBad 0 7).scheduled =
      some { delay := 1000, logData := dBad, retryCount := 1 } := by
  have h := validation_error_propagates_and_is_retried cfgEx failTransport [] dBad 0 7
    (.validation "message is required and must be a string") (by decide) (by decide) (by decide)
  exact ⟨h.2.2.1, by simpa using h.2.2.2⟩

/-- Once an item for the key is queued, every further failing attempt at
`1 ≤ k ≤ maxRetries` leaves the queue untouched and chains to the next
attempt; the loop performs `maxRetries - k + 1` attempts and stops
without ever removing the item. -/
theorem runLog_fail_loop (cfg : LoggerCfg)
    (transport : EnhancedData → Except SendError String) (d : LogData)
    (hlvl : cfg.enabledLevels.contains (levelOrInfo d.level) = true)
    (hfail : ∀ x, ∃ er, transport x = .error er) :
    ∀ fuel k q now, containsKey q d = true → 1 ≤ k → k ≤ cfg.maxRetries →
      cfg.maxRetries - k < fuel →
      runLog cfg transport fuel q d k now = (q, cfg.maxRetries - k + 1) := by
  intro fuel
  induction fuel with
  | zero => intro k q now _ _ _ hfuel; omega
  | succ fuel ih =>
    intro k q now hq hk1 hk2 hfuel
    obtain ⟨e, sent, hcl⟩ :=
      clientLog_error_of_transport cfg.validatePayload transport (enhance cfg d now) hfail
    rw [runLog, logStep_fail cfg transport q d k now e sent hlvl hcl]
    by_cases hlt : k < cfg.maxRetries
    · simp only [hlt, if_true, reduceIte, addToRetryQueue_of_containsKey q d k now hq]
      rw [ih (k + 1) q (now + cfg.retryDelay * 2 ^ k) hq (by omega) (by omega) (by omega)]
      have : cfg.maxRetries - (k + 1) + 1 + 1 = cfg.maxRetries - k + 1 := by omega
      rw [this]
    · have hk : k = cfg.maxRetries := by omega
      simp only [hlt, if_false, reduceIte]
      rw [hk]
      simp

/-- C1 counterexample: with the default configuration (`maxRetries = 3`)
and a transport that always fails with a retryable network error, the
whole retry lifecycle of `dEx` performs 4 failed attempts (not 3) and
ends with the retry queue still containing an item for the identity
key, refuting "the RetryItem is dropped from the queue once retries are
exhausted". -/
theorem retries_exhausted_item_never_dropped :
    (runLog cfgEx failTransport 10 [] dEx 0 0).2 = 4 ∧
    (runLog cfgEx failTransport 10 [] dEx 0 0).1 =
      [{ logData := dEx, retryCount := 1, addedAt := 0 }] ∧
    containsKey (runLog cfgEx failTransport 10 [] dEx 0 0).1 dEx = true :=
  ⟨rfl, rfl, rfl⟩

/-- C1 amended: for a record failing with a retryable error on every
attempt, the initial call and all `maxRetries` scheduled retries fail
(`maxRetries + 1` failed attempts in total) and then retrying stops,
but the RetryItem is not dropped: the failure path never removes queue
items, so the queue still contains the item (carrying `retryCount = 1`)
for that identity key; only a later successful retry or an explicit
clear removes it. -/
theorem exhausted_retries_leave_item_queued (cfg : LoggerCfg)
    (transport : EnhancedData → Except SendError String)
    (q : List RetryItem) (d : LogData) (now : Nat)
    (hlvl : cfg.enabledLevels.contains (levelOrInfo d.level) = true)
    (hfail : ∀ x, ∃ er, transport x = .error er)
    (hq : containsKey q d = false)
    (hm : 0 < cfg.maxRetries) :
    runLog cfg transport (cfg.maxRetries + 2) q d 0 now =
      (q ++ [{ logData := d, retryCount := 1, addedAt := now }], cfg.maxRetries + 1) ∧
    containsKey (runLog cfg transport (cfg.maxRetries + 2) q d 0 now).1 d = true := by
  obtain ⟨e, sent, hcl⟩ :=
    clientLog_error_of_transport cfg.validatePayload transport (enhance cfg d now) hfail
  have hstep :
      runLog cfg transport (cfg.maxRetries + 2) q d 0 now =
        (q ++ [{ logData := d, retryCount := 1, addedAt := now }], cfg.maxRetries + 1) := by
    have h2 : cfg.maxRetries + 2 = (cfg.maxRetries + 1) + 1 := by omega
    rw [h2, runLog, logStep_fail cfg transport q d 0 now e sent hlvl hcl]
    simp only [hm, if_true, reduceIte, addToRetryQueue_of_new q d 0 now hq, pow_zero,
      Nat.mul_one, Nat.zero_add]
    have hloop := runLog_fail_loop cfg transport d hlvl hfail (cfg.maxRetries + 1) 1
      (q ++ [{ logData := d, retryCount := 1, addedAt := now }])
      (now + cfg.retryDelay) (containsKey_append_self q d 1 now) (by omega) hm (by omega)
    rw [hloop, Prod.ext_iff]
    refine ⟨rfl, ?_⟩
    show cfg.maxRetries - 1 + 1 + 1 = cfg.maxRetries + 1
    omega
  refine ⟨hstep, ?_⟩
  rw [hstep]
  exact containsKey_append_self q d 1 now

/-- Witness for C1 amended at the default configuration: 4 failed
attempts, the item still queued afterwards. -/
theorem exhausted_retries_leave_item_queued_witness :
    runLog cfgEx failTransport 5 [] dEx 0 0 =
      ([{ logData := dEx, retryCount := 1, addedAt := 0 }], 4) := by
  have h := exhausted_retries_leave_item_queued cfgEx failTransport [] dEx 0 (by decide)
    (fun x => ⟨.network "Network request failed", rfl⟩) (by decide) (by decide)
  exact h.1

/-- C5: when attempt `k` (so `retryCount = k - 1`) fails with a
retryable error and `k ≤ maxRetries`, a retry is scheduled after
`retryDelay * 2 ^ (k - 1)` milliseconds with `retryCount = k`; the
delays are strictly monotone in `k`; and the item newly inserted on the
first attempt carries `retryCount = 1`. -/
theorem exponential_backoff_schedule (cfg : LoggerCfg)
    (transport : EnhancedData → Except SendError String)
    (q : List RetryItem) (d : LogData) (now k : Nat)
    (hlvl : cfg.enabledLevels.contains (levelOrInfo d.level) = true)
    (hfail : ∀ x, ∃ er, transport x = .error er)
    (hk1 : 1 ≤ k) (hk2 : k ≤ cfg.maxRetries) :
    (logStep cfg transport q d (k - 1) now).scheduled =
      some { delay := cfg.retryDelay * 2 ^ (k - 1), logData := d, retryCount := k } ∧
    (∀ j, k < j → 0 < cfg.retryDelay →
      cfg.retryDelay * 2 ^ (k - 1) < cfg.retryDelay * 2 ^ (j - 1)) ∧
    (containsKey q d = false → k = 1 →
      (logStep cfg transport q d (k - 1) now).queue =
        q ++ [{ logData := d, retryCount := 1, addedAt := now }]) := by
  obtain ⟨e, sent, hcl⟩ :=
    clientLog_error_of_transport cfg.validatePayload transport (enhance cfg d now) hfail
  have hrc : k - 1 < cfg.maxRetries := by omega
  rw [logStep_fail cfg transport q d (k - 1) now e sent hlvl hcl]
  have hk : k - 1 + 1 = k := by omega
  refine ⟨by simp [hrc, hk], ?_, ?_⟩
  · intro j hj hdelay
    exact mul_lt_mul_of_pos_left (Nat.pow_lt_pow_right (by omega) (by omega)) hdelay
  · intro hq hk1'
    subst hk1'
    simp only [hrc, if_true, reduceIte, Nat.sub_self]
    exact addToRetryQueue_of_new q d 0 now hq

/-- Witness for C5 at `k = 1` (delay `1000 * 2^0 = 1000ms`) and the
monotonicity instance `k = 1 < j = 2`. -/
theorem exponential_backoff_schedule_witness :
    (logStep cfgEx failTransport [] dEx 0 0).scheduled =
      some { delay := 1000, logData := dEx, retryCount := 1 } ∧
    cfgEx.retryDelay * 2 ^ 0 < cfgEx.retryDelay * 2 ^ 1 := by
  have h := exponential_backoff_schedule cfgEx failTransport [] dEx 0 1 (by decide)
    (fun x => ⟨.network "Network request failed", rfl⟩) (by decide) (by decide)
  exact ⟨by simpa using h.1, h.2.1 2 (by decide) (by decide)⟩

/-! ## Helper lemmas for the analytics aggregation engine -/

theorem foldl_add_count {α : Type} (f : α → Nat) (l : List α) (n : Nat) :
    l.foldl (fun sum x => sum + f x) n = n + (l.map f).sum := by
  induction l generalizing n with
  | nil => simp
  | cons a t ih => simp [ih, Nat.add_assoc]

theorem foldl_pair_counts (l : List LevelStat) (a b : Nat) :
    l.foldl
      (fun (p : Nat × Nat) stat =>
        (p.1 + stat.count,
         if stat.level = "error" ∨ stat.level = "critical" then p.2 + stat.count else p.2))
      (a, b) = (a + totalCount l, b + errorCount l) := by
  induction l generalizing a b with
  | nil => simp [totalCount, errorCount]
  | cons s t ih =>
    rw [List.foldl_cons, ih]
    by_cases h : s.level = "error" ∨ s.level = "critical"
    · have hb : (s.level == "error" || s.level == "critical") = true := by
        rcases h with h | h <;> simp [h]
      simp only [if_pos h, totalCount, errorCount, List.map_cons, List.sum_cons,
        List.filter_cons, hb, if_true]
      refine Prod.ext ?_ ?_ <;> dsimp <;> omega
    · have hb : (s.level == "error" || s.level == "critical") = false := by
        simp only [not_or] at h
        simp [h.1, h.2]
      simp only [if_neg h, totalCount, errorCount, List.map_cons, List.sum_cons,
        List.filter_cons, hb]
      refine Prod.ext ?_ ?_ <;> dsimp <;> omega

theorem maxCount_cons {α : Type} (f : α → Nat) (a : α) (t : List α) :
    maxCount f (a :: t) = max (f a) (maxCount f t) := rfl

theorem le_maxCount {α : Type} (f : α → Nat) (l : List α) :
    ∀ x ∈ l, f x ≤ maxCount f l := by
  induction l with
  | nil => simp
  | cons a t ih =>
    intro x hx
    rcases List.mem_cons.mp hx with h | h
    · subst h
      rw [maxCount_cons]
      exact le_max_left _ _
    · rw [maxCount_cons]
      exact le_trans (ih x h) (le_max_right _ _)

/-- The JS `reduce` with strict `>` keeps the earlier element on ties,
so it returns exactly the first entry attaining the maximal count. -/
theorem firstMax_eq_reduceMax {α : Type} (f : α → Nat) (a : α) (t : List α) :
    firstMax f (a :: t) = some (reduceMax f a t) := by
  induction t generalizing a with
  | nil =>
    have h : maxCount f [a] ≤ f a := by
      rw [maxCount_cons]
      simp [maxCount]
    unfold firstMax reduceMax
    simp only [List.foldl_nil]
    exact List.find?_cons_of_pos _ (decide_eq_true h)
  | cons b t ih =>
    by_cases hba : f a < f b
    · have hm : maxCount f (a :: b :: t) = maxCount f (b :: t) := by
        rw [maxCount_cons f a (b :: t)]
        refine max_eq_right (le_trans (le_of_lt hba) ?_)
        rw [maxCount_cons]
        exact le_max_left _ _
      have h1 : reduceMax f a (b :: t) = reduceMax f b t := by
        unfold reduceMax
        rw [List.foldl_cons, if_pos hba]
      have hpa : ¬ (maxCount f (b :: t) ≤ f a) := by
        refine not_le.mpr (lt_of_lt_of_le hba ?_)
        rw [maxCount_cons]
        exact le_max_left _ _
      rw [h1, ← ih b]
      unfold firstMax
      rw [hm]
      exact List.find?_cons_of_neg _ (by simpa using hpa)
    · have hba' : f b ≤ f a := le_of_not_lt hba
      have hm : maxCount f (a :: b :: t) = maxCount f (a :: t) := by
        rw [maxCount_cons f a (b :: t), maxCount_cons f b t, maxCount_cons f a t,
          ← max_assoc, max_eq_left hba']
      have h1 : reduceMax f a (b :: t) = reduceMax f a t := by
        unfold reduceMax
        rw [List.foldl_cons, if_neg hba]
      rw [h1, ← ih a]
      unfold firstMax
      rw [hm]
      by_cases hpa : maxCount f (a :: t) ≤ f a
      · have e1 : List.find? (fun x => decide (maxCount f (a :: t) ≤ f x)) (a :: b :: t) =
            some a := List.find?_cons_of_pos _ (decide_eq_true hpa)
        have e2 : List.find? (fun x => decide (maxCount f (a :: t) ≤ f x)) (a :: t) =
            some a := List.find?_cons_of_pos _ (decide_eq_true hpa)
        rw [e1, e2]
      · have hpb : ¬ (maxCount f (a :: t) ≤ f b) := fun hb => hpa (le_trans hb hba')
        have e1 : List.find? (fun x => decide (maxCount f (a :: t) ≤ f x)) (a :: b :: t) =
            List.find? (fun x => decide (maxCount f (a :: t) ≤ f x)) (b :: t) :=
          List.find?_cons_of_neg _ (by simpa using hpa)
        have e2 : List.find? (fun x => decide (maxCount f (a :: t) ≤ f x)) (b :: t) =
            List.find? (fun x => decide (maxCount f (a :: t) ≤ f x)) t :=
          List.find?_cons_of_neg _ (by simpa using hpb)
        have e3 : List.find? (fun x => decide (maxCount f (a :: t) ≤ f x)) (a :: t) =
            List.find? (fun x => decide (maxCount f (a :: t) ≤ f x)) t :=
          List.find?_cons_of_neg _ (by simpa using hpa)
        rw [e1, e2, e3]

theorem getPeakDay_eq_firstMax (l : List DayStat) :
    getPeakDay l = firstMax DayStat.count l := by
  cases l with
  | nil => rfl
  | cons h t =>
    rw [firstMax_eq_reduceMax]
    rfl

theorem trendLabel_eq_of_gt (c : ℚ) (h : 20 < c) : trendLabel c = "increasing" := by
  have h0 : (0 : ℚ) < c := lt_trans (by norm_num) h
  unfold trendLabel
  rw [if_pos (by rwa [abs_of_pos h0]), if_pos h0]

theorem trendLabel_eq_of_lt (c : ℚ) (h : c < -20) : trendLabel c = "decreasing" := by
  have h0 : ¬ (0 : ℚ) < c := by linarith
  unfold trendLabel
  rw [if_pos (by rw [abs_of_neg (by linarith)]; linarith), if_neg h0]

theorem trendLabel_eq_of_mid (c : ℚ) (h1 : -20 ≤ c) (h2 : c ≤ 20) :
    trendLabel c = "stable" := by
  unfold trendLabel
  rw [if_neg (by rw [not_lt]; exact abs_le.mpr ⟨by linarith, h2⟩)]

theorem trendLabel_classify (c : ℚ) :
    (trendLabel c = "increasing" ↔ 20 < c) ∧
    (trendLabel c = "decreasing" ↔ c < -20) ∧
    (trendLabel c = "stable" ↔ -20 ≤ c ∧ c ≤ 20) := by
  rcases lt_or_le (20 : ℚ) c with hgt | hle
  · rw [trendLabel_eq_of_gt c hgt]
    refine ⟨by simpa using hgt, ?_, ?_⟩
    · exact ⟨fun h => absurd h (by decide), fun h => absurd h (by linarith)⟩
    · exact ⟨fun h => absurd h (by decide), fun h => absurd h.2 (by linarith)⟩
  · rcases lt_or_le c (-20 : ℚ) with hlt | hge
    · rw [trendLabel_eq_of_lt c hlt]
      refine ⟨?_, by simpa using hlt, ?_⟩
      · exact ⟨fun h => absurd h (by decide), fun h => absurd h (by linarith)⟩
      · exact ⟨fun h => absurd h (by decide), fun h => absurd h.1 (by linarith)⟩
    · rw [trendLabel_eq_of_mid c hge hle]
      refine ⟨?_, ?_, by simp [hge, hle]⟩
      · exact ⟨fun h => absurd h (by decide), fun h => absurd h (by linarith)⟩
      · exact ⟨fun h => absurd h (by decide), fun h => absurd h (by linarith)⟩

/-- C7: `errorRate` equals the sum of counts at level `error` or
`critical`, divided by the total count across all levels, times 100;
it returns 0 when the total count is 0 (the empty list included); on
`{info: 80, error: 15, critical: 5}` it is exactly 20. -/
theorem error_rate_formula (l : List LevelStat) :
    getErrorRate l =
      (if 0 < totalCount l then ((errorCount l : ℚ) / (totalCount l : ℚ)) * 100 else 0) ∧
    (totalCount l = 0 → getErrorRate l = 0) ∧
    getErrorRate [⟨"info", 80⟩, ⟨"error", 15⟩, ⟨"critical", 5⟩] = 20 := by
  have h1 : getErrorRate l =
      (if 0 < totalCount l then ((errorCount l : ℚ) / (totalCount l : ℚ)) * 100 else 0) := by
    unfold getErrorRate
    rw [foldl_pair_counts l 0 0]
    simp
  refine ⟨h1, fun h0 => ?_, ?_⟩
  · rw [h1, h0]
    simp
  · simp +decide only [getErrorRate, List.foldl_cons, List.foldl_nil]
    norm_num

/-- Witness for C7's total-count-zero branch at the empty list. -/
theorem error_rate_formula_witness : getErrorRate [] = 0 :=
  (error_rate_formula []).2.1 rfl

/-- C6: `getTrend` returns the `insufficient_data` sentinel on every
series shorter than 14; on longer series it sorts by date descending
(a permutation of the input, most recent first), sums the first 7 and
next 7 counts, computes the percentage change (0 when the previous week
is 0), rounds the reported change to 2 decimals, and classifies the
change as increasing above 20, decreasing below -20, stable otherwise;
on `trendEx` (140 vs 100) it yields change 40, increasing. -/
theorem trend_week_over_week (s : List DayStat) (h14 : 14 ≤ s.length) :
    List.Perm (sortByDateDesc s) s ∧
    List.Sorted dateGe (sortByDateDesc s) ∧
    (getTrend s).last_week = weekSum ((sortByDateDesc s).take 7) ∧
    (getTrend s).previous_week = weekSum (((sortByDateDesc s).drop 7).take 7) ∧
    (getTrend s).change =
      round2 (rawChange (getTrend s).last_week (getTrend s).previous_week) ∧
    ((getTrend s).trend = "increasing" ↔
      20 < rawChange (getTrend s).last_week (getTrend s).previous_week) ∧
    ((getTrend s).trend = "decreasing" ↔
      rawChange (getTrend s).last_week (getTrend s).previous_week < -20) ∧
    ((getTrend s).trend = "stable" ↔
      -20 ≤ rawChange (getTrend s).last_week (getTrend s).previous_week ∧
        rawChange (getTrend s).last_week (getTrend s).previous_week ≤ 20) ∧
    (∀ s' : List DayStat, s'.length < 14 →
      getTrend s' =
        { trend := "insufficient_data", change := 0, last_week := 0, previous_week := 0 }) ∧
    getTrend trendEx =
      { trend := "increasing", change := 40, last_week := 140, previous_week := 100 } := by
  have hne : ¬ s.length < 14 := by omega
  have hlw : (getTrend s).last_week = weekSum ((sortByDateDesc s).take 7) := by
    simp only [getTrend, if_neg hne]
    rw [foldl_add_count]
    exact Nat.zero_add _
  have hpw : (getTrend s).previous_week = weekSum (((sortByDateDesc s).drop 7).take 7) := by
    simp only [getTrend, if_neg hne]
    rw [foldl_add_count]
    exact Nat.zero_add _
  have hch : (getTrend s).change =
      round2 (rawChange (getTrend s).last_week (getTrend s).previous_week) := by
    rw [hlw, hpw]
    simp only [getTrend, if_neg hne, rawChange, weekSum]
    rw [foldl_add_count, foldl_add_count]
    simp
  have htr : (getTrend s).trend =
      trendLabel (rawChange (getTrend s).last_week (getTrend s).previous_week) := by
    rw [hlw, hpw]
    simp only [getTrend, if_neg hne, rawChange, weekSum]
    rw [foldl_add_count, foldl_add_count]
    simp
  refine ⟨List.perm_insertionSort dateGe s, List.sorted_insertionSort dateGe s,
    hlw, hpw, hch, ?_, ?_, ?_, ?_, ?_⟩
  · rw [htr]
    exact (trendLabel_classify _).1
  · rw [htr]
    exact (trendLabel_classify _).2.1
  · rw [htr]
    exact (trendLabel_classify _).2.2
  · intro s' hs'
    simp [getTrend, hs']
  · have hs : sortByDateDesc trendEx = trendEx := by
      simp +decide only [sortByDateDesc, trendEx, List.insertionSort, List.orderedInsert]
    simp +decide only [getTrend, trendEx, hs, List.length_cons, List.length_nil,
      List.take, List.drop, List.foldl_cons, List.foldl_nil]
    norm_num [trendLabel, round2]

/-- Witness for C6 at the concrete 14-entry series `trendEx`. -/
theorem trend_week_over_week_witness :
    14 ≤ trendEx.length ∧
    getTrend trendEx =
      { trend := "increasing", change := 40, last_week := 140, previous_week := 100 } := by
  refine ⟨by decide, ?_⟩
  have h := trend_week_over_week trendEx (by decide)
  exact h.2.2.2.2.2.2.2.2.2

/-- C8: `getPeakDay` and `getMostFrequentLevel` pick the entry with
maximal count, resolving ties to the first occurrence in the input
ordering (`find?` of the maximum), return `null` on empty input, and
`getMostFrequentLevel` reports `percentage = count / total * 100`
rounded to 2 decimals (0 when the total is 0); determinism is inherent:
both are pure functions of the input list. -/
theorem tie_break_first_occurrence (l : List DayStat) (ls : List LevelStat)
    (hl : l ≠ []) (hls : ls ≠ []) :
    getPeakDay l = firstMax DayStat.count l ∧
    (∃ r, getPeakDay l = some r ∧ r ∈ l ∧ ∀ x ∈ l, x.count ≤ r.count) ∧
    (∃ m, firstMax LevelStat.count ls = some m ∧ m ∈ ls ∧ (∀ x ∈ ls, x.count ≤ m.count) ∧
      getMostFrequentLevel ls =
        some { level := m.level, count := m.count,
               percentage := round2 (if 0 < totalCount ls then
                 ((m.count : ℚ) / (totalCount ls : ℚ)) * 100 else 0) }) ∧
    getPeakDay ([] : List DayStat) = none ∧
    getMostFrequentLevel ([] : List LevelStat) = none := by
  refine ⟨getPeakDay_eq_firstMax l, ?_, ?_, rfl, rfl⟩
  · cases l with
    | nil => exact absurd rfl hl
    | cons a t =>
      refine ⟨reduceMax DayStat.count a t, ?_, ?_, ?_⟩
      · rw [getPeakDay_eq_firstMax, firstMax_eq_reduceMax]
      · exact List.mem_of_find?_eq_some (firstMax_eq_reduceMax DayStat.count a t)
      · intro x hx
        have hp := List.find?_some (firstMax_eq_reduceMax DayStat.count a t)
        have hmax : maxCount DayStat.count (a :: t) ≤
            (reduceMax DayStat.count a t).count := of_decide_eq_true hp
        exact le_trans (le_maxCount DayStat.count (a :: t) x hx) hmax
  · cases ls with
    | nil => exact absurd rfl hls
    | cons a t =>
      have htot : (a :: t).foldl (fun sum stat => sum + stat.count) (0 : Nat) =
          totalCount (a :: t) := by
        rw [foldl_add_count]
        exact Nat.zero_add _
      refine ⟨reduceMax LevelStat.count a t, firstMax_eq_reduceMax LevelStat.count a t,
        List.mem_of_find?_eq_some (firstMax_eq_reduceMax LevelStat.count a t), ?_, ?_⟩
      · intro x hx
        have hp := List.find?_some (firstMax_eq_reduceMax LevelStat.count a t)
        have hmax : maxCount LevelStat.count (a :: t) ≤
            (reduceMax LevelStat.count a t).count := of_decide_eq_true hp
        exact le_trans (le_maxCount LevelStat.count (a :: t) x hx) hmax
      · simp only [getMostFrequentLevel, htot]

/-- Witness for C8 at concrete tied inputs: in both lists the maximal
count occurs twice and the first occurrence wins. -/
theorem tie_break_first_occurrence_witness :
    getPeakDay peakTieEx = some ⟨1, 5⟩ ∧
    getMostFrequentLevel levelTieEx = some ⟨"info", 3, 50⟩ := by
  have h := tie_break_first_occurrence peakTieEx levelTieEx (by decide) (by decide)
  constructor
  · rw [h.1]
    decide
  · obtain ⟨m, hm1, _, _, hm4⟩ := h.2.2.1
    have hmv : m = (⟨"info", 3⟩ : LevelStat) := by
      have : firstMax LevelStat.count levelTieEx = some ⟨"info", 3⟩ := by decide
      rw [this] at hm1
      exact (Option.some_injective _ hm1.symm)
    rw [hm4, hmv]
    simp +decide only [totalCount, levelTieEx, List.map_cons, List.map_nil, List.sum_cons,
      List.sum_nil]
    norm_num [round2]

/-! ## Helper lemmas for the context-object heap -/

theorem heapRead_append_lt (h : CtxHeap) (c : Ctx) (r : Nat) (hr : r < h.length) :
    heapRead (h ++ [c]) r = heapRead h r := by
  unfold heapRead
  rw [List.get?_eq_getElem?, List.get?_eq_getElem?, List.getElem?_append_left hr]

theorem heapRead_append_len (h : CtxHeap) (c : Ctx) :
    heapRead (h ++ [c]) h.length = c := by
  unfold heapRead
  rw [List.get?_eq_getElem?, List.getElem?_concat_length]
  rfl

theorem heapRead_write_ne (h : CtxHeap) (r r' : Nat) (c : Ctx) (hne : r ≠ r') :
    heapRead (heapWrite h r c) r' = heapRead h r' := by
  unfold heapRead heapWrite
  rw [List.get?_eq_getElem?, List.get?_eq_getElem?, List.getElem?_set_ne hne]

theorem ctxLookup_go (b : Ctx) (k : String) (acc : Option String) :
    b.foldl (fun a p => if p.1 = k then some p.2 else a) acc =
      match ctxLookup b k with
      | some v => some v
      | none => acc := by
  induction b generalizing acc with
  | nil => simp [ctxLookup]
  | cons p t ih =>
    have hch : ctxLookup (p :: t) k =
        t.foldl (fun a q => if q.1 = k then some q.2 else a)
          (if p.1 = k then some p.2 else none) := rfl
    rw [List.foldl_cons, ih, hch, ih]
    by_cases hk : p.1 = k
    · simp only [hk, if_pos rfl]
      cases ctxLookup t k <;> rfl
    · simp only [if_neg hk]
      cases ctxLookup t k <;> rfl

/-- Lookup in `{...a, ...b}`: keys of `b` override keys of `a`. -/
theorem ctxLookup_append (a b : Ctx) (k : String) :
    ctxLookup (a ++ b) k =
      match ctxLookup b k with
      | some v => some v
      | none => ctxLookup a k := by
  unfold ctxLookup
  rw [List.foldl_append]
  exact ctxLookup_go b k _

/-- C9: `child` builds the child's default context as a fresh object
holding the parent's defaults merged with the overrides (override keys
win on lookup), with no live reference back to the parent: mutating the
parent's context afterwards never changes the child, and two children
built with different overrides have independent contexts — mutating
one's context affects neither the other child nor the parent. -/
theorem child_context_isolation (h : CtxHeap) (p : Nat) (ov1 ov2 c : Ctx)
    (hp : p < h.length) :
    (childAlloc h p ov1).2 ≠ p ∧
    heapRead (childAlloc h p ov1).1 (childAlloc h p ov1).2 = heapRead h p ++ ov1 ∧
    (∀ k, ctxLookup (heapRead (childAlloc h p ov1).1 (childAlloc h p ov1).2) k =
      match ctxLookup ov1 k with
      | some v => some v
      | none => ctxLookup (heapRead h p) k) ∧
    heapRead (heapWrite (childAlloc h p ov1).1 p c) (childAlloc h p ov1).2 =
      heapRead h p ++ ov1 ∧
    (childAlloc (childAlloc h p ov1).1 p ov2).2 ≠ (childAlloc h p ov1).2 ∧
    (childAlloc (childAlloc h p ov1).1 p ov2).2 ≠ p ∧
    heapRead (childAlloc (childAlloc h p ov1).1 p ov2).1 (childAlloc h p ov1).2 =
      heapRead h p ++ ov1 ∧
    heapRead (childAlloc (childAlloc h p ov1).1 p ov2).1
      (childAlloc (childAlloc h p ov1).1 p ov2).2 = heapRead h p ++ ov2 ∧
    (∀ c2,
      heapRead (heapWrite (childAlloc (childAlloc h p ov1).1 p ov2).1
          (childAlloc h p ov1).2 c2)
        (childAlloc (childAlloc h p ov1).1 p ov2).2 = heapRead h p ++ ov2 ∧
      heapRead (heapWrite (childAlloc (childAlloc h p ov1).1 p ov2).1
          (childAlloc h p ov1).2 c2) p = heapRead h p ∧
      heapRead (heapWrite (childAlloc (childAlloc h p ov1).1 p ov2).1
          (childAlloc (childAlloc h p ov1).1 p ov2).2 c2)
        (childAlloc h p ov1).2 = heapRead h p ++ ov1) := by
  have hr1 : (childAlloc h p ov1).2 = h.length := rfl
  have hh1 : (childAlloc h p ov1).1 = h ++ [heapRead h p ++ ov1] := rfl
  have hlen1 : (childAlloc h p ov1).1.length = h.length + 1 := by
    rw [hh1, List.length_append, List.length_cons, List.length_nil]
  have hread1 : heapRead (childAlloc h p ov1).1 (childAlloc h p ov1).2 =
      heapRead h p ++ ov1 := by
    rw [hr1, hh1]
    exact heapRead_append_len h _
  have hreadp1 : heapRead (childAlloc h p ov1).1 p = heapRead h p := by
    rw [hh1]
    exact heapRead_append_lt h _ p hp
  have hr2 : (childAlloc (childAlloc h p ov1).1 p ov2).2 = h.length + 1 := by
    show (childAlloc h p ov1).1.length = h.length + 1
    exact hlen1
  have hh2 : (childAlloc (childAlloc h p ov1).1 p ov2).1 =
      (childAlloc h p ov1).1 ++ [heapRead h p ++ ov2] := by
    show (childAlloc h p ov1).1 ++ [heapRead (childAlloc h p ov1).1 p ++ ov2] = _
    rw [hreadp1]
  have hread21 : heapRead (childAlloc (childAlloc h p ov1).1 p ov2).1
      (childAlloc h p ov1).2 = heapRead h p ++ ov1 := by
    rw [hh2, hr1, heapRead_append_lt _ _ _ (by omega), ← hr1, hread1]
  have hread22 : heapRead (childAlloc (childAlloc h p ov1).1 p ov2).1
      (childAlloc (childAlloc h p ov1).1 p ov2).2 = heapRead h p ++ ov2 := by
    rw [hh2, hr2, ← hlen1]
    exact heapRead_append_len _ _
  have hreadp2 : heapRead (childAlloc (childAlloc h p ov1).1 p ov2).1 p = heapRead h p := by
    rw [hh2, heapRead_append_lt _ _ p (by omega), hreadp1]
  refine ⟨by omega, hread1, ?_, ?_, by omega, by omega, hread21, hread22, ?_⟩
  · intro k
    rw [hread1]
    exact ctxLookup_append _ _ k
  · rw [heapRead_write_ne _ p (childAlloc h p ov1).2 c (by omega), hread1]
  · intro c2
    refine ⟨?_, ?_, ?_⟩
    · rw [heapRead_write_ne _ (childAlloc h p ov1).2
        (childAlloc (childAlloc h p ov1).1 p ov2).2 c2 (by omega), hread22]
    · rw [heapRead_write_ne _ (childAlloc h p ov1).2 p c2 (by omega), hreadp2]
    · rw [heapRead_write_ne _ (childAlloc (childAlloc h p ov1).1 p ov2).2
        (childAlloc h p ov1).2 c2 (by omega), hread21]

/-- Witness for C9 on a one-object heap: the child's merged context and
its immunity to a parent overwrite, at concrete values. -/
theorem child_context_isolation_witness :
    heapRead (childAlloc [[("a", "1")]] 0 [("b", "2")]).1
        (childAlloc [[("a", "1")]] 0 [("b", "2")]).2 = [("a", "1"), ("b", "2")] ∧
    heapRead (heapWrite (childAlloc [[("a", "1")]] 0 [("b", "2")]).1 0 [("x", "9")])
        (childAlloc [[("a", "1")]] 0 [("b", "2")]).2 = [("a", "1"), ("b", "2")] := by
  have h := child_context_isolation [[("a", "1")]] 0 [("b", "2")] [("c", "3")] [("x", "9")]
    (by decide)
  exact ⟨h.2.1, h.2.2.2.1⟩

end CheckLogs
